import Mathlib

/-
Verification development for the AI-Lecture-Voice-to-Notes-Generator
repository.  The Python sources under src/ are shallowly embedded as Lean
definitions: pure string manipulation becomes functions on String / List
Char, the JSON database file becomes an explicit `Option DB` value threaded
through the StateManager operations (`none` models a file whose JSON load
raises), and external library calls (NLTK tokenizers, the random module,
the AssemblyAI API, the transformers pipeline, the clock) become oracle
parameters: fixed functions from their arguments to their results.
Python floats are modelled as exact rationals (ℚ); the claims proved below
do not depend on rounding of float arithmetic.
-/

namespace V2N

/-! ### Python string primitives used by the sources -/

/-- Python whitespace test for a character (ASCII approximation). -/
def pyIsSpace (c : Char) : Bool := c.isWhitespace

/-- `str.strip()` : drop whitespace from both ends. -/
def pyStrip (s : String) : String :=
  ⟨((s.data.dropWhile pyIsSpace).reverse.dropWhile pyIsSpace).reverse⟩

/-- `str.strip(chars)` : drop the given characters from both ends. -/
def pyStripChars (cs : List Char) (s : String) : String :=
  ⟨((s.data.dropWhile (cs.contains ·)).reverse.dropWhile (cs.contains ·)).reverse⟩

/-- `str.lower()` (ASCII approximation of Python case folding). -/
def pyLower (s : String) : String := ⟨s.data.map Char.toLower⟩

/-- Helper for `str.split()` : split on whitespace runs, no empty parts. -/
def pySplitWsAux : List Char → List Char → List String
  | [], acc => if acc.isEmpty then [] else [⟨acc.reverse⟩]
  | c :: rest, acc =>
    if pyIsSpace c then
      if acc.isEmpty then pySplitWsAux rest []
      else ⟨acc.reverse⟩ :: pySplitWsAux rest []
    else pySplitWsAux rest (c :: acc)

/-- `str.split()` with no argument: whitespace-separated words, empties dropped. -/
def pySplitWs (s : String) : List String := pySplitWsAux s.data []

/-- `str.isalnum()` : nonempty and all characters alphanumeric (ASCII model). -/
def pyIsalnum (s : String) : Bool := !s.data.isEmpty && s.data.all Char.isAlphanum

/-- A cased character (ASCII model of Python `str.istitle` support). -/
def pyIsCased (c : Char) : Bool := c.isUpper || c.isLower

/-- `str.istitle()` : uppercase letters only after uncased characters,
lowercase only after cased ones, and at least one cased character. -/
def pyIstitleAux : List Char → Bool → Bool → Bool
  | [], _, seenCased => seenCased
  | c :: rest, prevCased, seenCased =>
    if c.isUpper then
      if prevCased then false else pyIstitleAux rest true true
    else if c.isLower then
      if prevCased then pyIstitleAux rest true true else false
    else pyIstitleAux rest false seenCased

def pyIstitle (s : String) : Bool := pyIstitleAux s.data false false

/-- Python `s[:k]` on a string, `k ≥ 0`. -/
def pyTakeStr (k : Nat) (s : String) : String := ⟨s.data.take k⟩

/-- Python `s[:-k]` on a string (all but the last `k` characters). -/
def pyDropLastStr (k : Nat) (s : String) : String := ⟨s.data.take (s.data.length - k)⟩

/-- Python `l[:k]` on a list with a possibly negative bound `k`. -/
def pySliceTo {α : Type} (k : Int) (l : List α) : List α :=
  l.take (if 0 ≤ k then k.toNat else ((l.length : Int) + k).toNat)

/-- Python `chr(n)` as a one-character string. -/
def pyChr (n : Nat) : String := String.singleton (Char.ofNat n)

/-- `str.replace(old, new)` worker (fuel-based so that it evaluates in the
kernel; the wrapper supplies enough fuel for the non-empty pattern case). -/
def pyReplaceAllAux (pat rep : List Char) : Nat → List Char → List Char
  | 0, s => s
  | _, [] => []
  | fuel + 1, c :: rest =>
    if pat.isPrefixOf (c :: rest) then
      rep ++ pyReplaceAllAux pat rep fuel ((c :: rest).drop pat.length)
    else c :: pyReplaceAllAux pat rep fuel rest

/-- `str.replace(old, new)` : replace every occurrence.  The empty pattern
follows Python ("abc".replace("", "X") = "XaXbXcX"). -/
def pyReplaceAll (pat rep s : String) : String :=
  if pat.data.isEmpty then
    ⟨rep.data ++ s.data.flatMap (fun c => c :: rep.data)⟩
  else ⟨pyReplaceAllAux pat.data rep.data (s.data.length + 1) s.data⟩

/-- `str.replace(old, new, 1)` worker. -/
def pyReplaceFirstAux (pat rep : List Char) : Nat → List Char → List Char
  | 0, s => s
  | _, [] => if pat.isEmpty then rep else []
  | fuel + 1, c :: rest =>
    if pat.isPrefixOf (c :: rest) then rep ++ (c :: rest).drop pat.length
    else c :: pyReplaceFirstAux pat rep fuel rest

/-- `str.replace(old, new, 1)` : replace the first occurrence only. -/
def pyReplaceFirst (pat rep s : String) : String :=
  ⟨pyReplaceFirstAux pat.data rep.data (s.data.length + 1) s.data⟩

/-- Regex word character, `[A-Za-z0-9_]` as in `\b` boundaries. -/
def reWordChar (c : Char) : Bool := c.isAlphanum || c == '_'

/-- Worker for `re.sub(r'\bword\b', rep, s, count=1)` : replace the first
whole-word occurrence, tracking the previous character for the left boundary. -/
def reSubWordFirstAux (pat rep : List Char) : Nat → Option Char → List Char → List Char
  | 0, _, s => s
  | _, _, [] => []
  | fuel + 1, prev, c :: rest =>
    if pat.isPrefixOf (c :: rest)
        && (match prev with | none => true | some p => !reWordChar p)
        && (match ((c :: rest).drop pat.length).head? with
            | none => true
            | some d => !reWordChar d) then
      rep ++ (c :: rest).drop pat.length
    else c :: reSubWordFirstAux pat rep fuel (some c) rest

/-- `re.sub(r'\bword\b', rep, s, count=1)` for a literal word pattern. -/
def reSubWordFirst (pat rep s : String) : String :=
  ⟨reSubWordFirstAux pat.data rep.data (s.data.length + 1) none s.data⟩

/-- Worker for `re.findall(r'\b\d+\b', s)` : maximal digit runs delimited by
word boundaries, in order of occurrence. -/
def reFindNumbersAux : Nat → Option Char → List Char → List String
  | 0, _, _ => []
  | _, _, [] => []
  | fuel + 1, prev, c :: rest =>
    if c.isDigit && (match prev with | none => true | some p => !reWordChar p) then
      let run := (c :: rest).takeWhile Char.isDigit
      let rest' := (c :: rest).dropWhile Char.isDigit
      let okAfter := match rest'.head? with
        | none => true
        | some d => !reWordChar d
      if okAfter then
        (⟨run⟩ : String) :: reFindNumbersAux fuel run.getLast? rest'
      else reFindNumbersAux fuel run.getLast? rest'
    else reFindNumbersAux fuel (some c) rest

/-- `re.findall(r'\b\d+\b', s)`. -/
def reFindNumbers (s : String) : List String :=
  reFindNumbersAux (s.data.length + 1) none s.data

/-- `int(s)` for a string of decimal digits. -/
def pyDigitsToNat (s : String) : Nat :=
  s.data.foldl (fun acc c => acc * 10 + (c.toNat - '0'.toNat)) 0

/-! ### StateManager (src/utils/state_manager.py)

The persisted JSON document is modelled by the type `DB`.  The file on disk
is an `Option DB`: `some db` is a readable document, `none` is a file whose
`json.load` raises (so `load_database` shows an error and returns `None`).
`save_database` takes a `saveOk` flag modelling whether the `open`/`json.dump`
call raises.  Lecture records carry an id, a creation timestamp, an optional
duration and an opaque payload standing for the remaining JSON fields
(title, subject, tags, file paths, transcript, summary, language, analysis). -/

structure LectureData where
  duration : Option Int
  payload : String
  deriving DecidableEq, Repr

structure Lecture where
  id : Nat
  created_at : String
  data : LectureData
  deriving DecidableEq, Repr

structure Analytics where
  total_lectures : Nat
  total_duration : Int
  total_quizzes : Nat
  deriving DecidableEq, Repr

/-- The settings JSON object, a string-keyed dictionary. -/
def Settings : Type := List (String × String)

instance : DecidableEq Settings := by
  unfold Settings
  infer_instance

structure QuizResult where
  taken_at : String
  payload : String
  deriving DecidableEq, Repr

/-- The whole database document.  `quiz_results = none` models the key
being absent from the JSON object (the initial document has no
`quiz_results` key; `clear_all` writes one). -/
structure DB where
  lectures : List Lecture
  settings : Settings
  analytics : Analytics
  quiz_results : Option (List QuizResult)
  deriving DecidableEq

/-- `dict.update` on a string-keyed dictionary: keys of `base` keep their
position and receive the updated value when present in `upd`; keys of `upd`
absent from `base` are appended. -/
def dictUpdate (base upd : Settings) : Settings :=
  base.map (fun p => (p.1, ((upd.lookup p.1).getD p.2))) ++
    upd.filter (fun p => (base.lookup p.1).isNone)

/-- The `initial_data` document written by `ensure_database` (it has no
`quiz_results` key). -/
def initial_data : DB :=
  { lectures := []
    settings := [("whisper_model", "base"), ("summary_length", "medium"),
                 ("quiz_difficulty", "medium"), ("language", "en")]
    analytics := { total_lectures := 0, total_duration := 0, total_quizzes := 0 }
    quiz_results := none }

/-- The `initial_data` document written by `clear_all` (it has an empty
`quiz_results` array). -/
def clear_initial_data : DB :=
  { initial_data with quiz_results := some [] }

/-- `load_database` : returns the parsed document, or `None` when reading
or parsing raises. -/
def load_database (file : Option DB) : Option DB := file

/-- `save_database` : writes the whole document, returning `True`; when the
write raises (`saveOk = false`) it returns `False` and the file keeps its
previous content. -/
def save_database (saveOk : Bool) (d : DB) (file : Option DB) : Bool × Option DB :=
  if saveOk then (true, some d) else (false, file)

/-- The in-memory mutation performed by `add_lecture`: assign
`id = len(lectures) + 1` and `created_at`, append the record, bump
`total_lectures`, and add the duration to `total_duration` when present. -/
def add_modify (ld : LectureData) (now : String) (db : DB) : DB :=
  let lec : Lecture := { id := db.lectures.length + 1, created_at := now, data := ld }
  let db := { db with lectures := db.lectures ++ [lec] }
  let db := { db with analytics :=
    { db.analytics with total_lectures := db.analytics.total_lectures + 1 } }
  match ld.duration with
  | some d => { db with analytics :=
      { db.analytics with total_duration := db.analytics.total_duration + d } }
  | none => db

/-- `add_lecture` : read-modify-write; returns the new id or `None`. -/
def add_lecture (saveOk : Bool) (ld : LectureData) (now : String)
    (file : Option DB) : Option Nat × Option DB :=
  match load_database file with
  | none => (none, file)
  | some db =>
    let db' := add_modify ld now db
    match save_database saveOk db' file with
    | (true, f) => (some (db.lectures.length + 1), f)
    | (false, f) => (none, f)

/-- An `updates` dict passed to `update_lecture`; `none` fields model keys
absent from the dict (`dict.update` only overwrites the keys it names). -/
structure LectureUpdates where
  newId : Option Nat
  newCreated : Option String
  newDuration : Option Int
  newPayload : Option String
  deriving DecidableEq, Repr

/-- `lecture.update(updates)` on one record. -/
def applyUpdates (u : LectureUpdates) (l : Lecture) : Lecture :=
  { id := u.newId.getD l.id
    created_at := u.newCreated.getD l.created_at
    data := { duration := match u.newDuration with
                | some d => some d
                | none => l.data.duration
              payload := u.newPayload.getD l.data.payload } }

/-- The loop of `update_lecture`: update the first record whose id matches,
`none` when no record matches. -/
def update_in_list (lid : Nat) (u : LectureUpdates) : List Lecture → Option (List Lecture)
  | [] => none
  | l :: rest =>
    if l.id = lid then some (applyUpdates u l :: rest)
    else (update_in_list lid u rest).map (l :: ·)

/-- `update_lecture` : read-modify-write on the first matching record;
`False` (with no write) when loading fails or no record matches. -/
def update_lecture (saveOk : Bool) (lid : Nat) (u : LectureUpdates)
    (file : Option DB) : Bool × Option DB :=
  match load_database file with
  | none => (false, file)
  | some db =>
    match update_in_list lid u db.lectures with
    | some ls => save_database saveOk { db with lectures := ls } file
    | none => (false, file)

/-- The in-memory mutation of `delete_lecture`: keep records with a
different id. -/
def delete_modify (lid : Nat) (db : DB) : DB :=
  { db with lectures := db.lectures.filter (fun l => l.id ≠ lid) }

/-- `delete_lecture` : read-modify-write. -/
def delete_lecture (saveOk : Bool) (lid : Nat) (file : Option DB) : Bool × Option DB :=
  match load_database file with
  | none => (false, file)
  | some db => save_database saveOk (delete_modify lid db) file

/-- The in-memory mutation of `update_settings`: `db['settings'].update(settings)`. -/
def settings_modify (upd : Settings) (db : DB) : DB :=
  { db with settings := dictUpdate db.settings upd }

/-- `update_settings` : read-modify-write on the settings object. -/
def update_settings (saveOk : Bool) (upd : Settings) (file : Option DB) : Bool × Option DB :=
  match load_database file with
  | none => (false, file)
  | some db => save_database saveOk (settings_modify upd db) file

/-- The in-memory mutation of `increment_quiz_count`.  (The analytics object
is modelled as a record, so the `.get('total_quizzes', 0)` default for a
missing key is always the stored value.) -/
def incr_quiz_modify (db : DB) : DB :=
  { db with analytics :=
    { db.analytics with total_quizzes := db.analytics.total_quizzes + 1 } }

/-- `increment_quiz_count` : read-modify-write. -/
def increment_quiz_count (saveOk : Bool) (file : Option DB) : Bool × Option DB :=
  match load_database file with
  | none => (false, file)
  | some db => save_database saveOk (incr_quiz_modify db) file

/-- The in-memory mutation of `add_quiz_result`: create the `quiz_results`
array when the key is absent, stamp and append the result, bump
`total_quizzes`. -/
def quiz_result_modify (payload : String) (now : String) (db : DB) : DB :=
  let prev := db.quiz_results.getD []
  let db := { db with quiz_results := some (prev ++ [QuizResult.mk now payload]) }
  { db with analytics :=
    { db.analytics with total_quizzes := db.analytics.total_quizzes + 1 } }

/-- `add_quiz_result` : read-modify-write. -/
def add_quiz_result (saveOk : Bool) (payload : String) (now : String)
    (file : Option DB) : Bool × Option DB :=
  match load_database file with
  | none => (false, file)
  | some db => save_database saveOk (quiz_result_modify payload now db) file

/-- `clear_all` : writes the fixed initial document.  Note that it performs
no load at all. -/
def clear_all (saveOk : Bool) (file : Option DB) : Bool × Option DB :=
  save_database saveOk clear_initial_data file

/-- Database files reachable from the initial document through the
`add_lecture` / `update_lecture` / `delete_lecture` operations (each step
chooses the operation arguments and whether the write succeeds). -/
inductive Reachable : Option DB → Prop
  | init : Reachable (some initial_data)
  | add (f : Option DB) (ok : Bool) (ld : LectureData) (now : String) :
      Reachable f → Reachable (add_lecture ok ld now f).2
  | upd (f : Option DB) (ok : Bool) (lid : Nat) (u : LectureUpdates) :
      Reachable f → Reachable (update_lecture ok lid u f).2
  | del (f : Option DB) (ok : Bool) (lid : Nat) :
      Reachable f → Reachable (delete_lecture ok lid f).2

/-- Database files reachable without `delete_lecture` and with updates that
do not touch the `id` key. -/
inductive ReachableNoDel : Option DB → Prop
  | init : ReachableNoDel (some initial_data)
  | add (f : Option DB) (ok : Bool) (ld : LectureData) (now : String) :
      ReachableNoDel f → ReachableNoDel (add_lecture ok ld now f).2
  | upd (f : Option DB) (ok : Bool) (lid : Nat) (u : LectureUpdates) :
      u.newId = none → ReachableNoDel f → ReachableNoDel (update_lecture ok lid u f).2

/-- The id list of the lectures stored in a database file. -/
def idsOf (f : Option DB) : List Nat :=
  match f with
  | some db => db.lectures.map (·.id)
  | none => []

/-! ### Lemmas about the StateManager operations -/

theorem update_in_list_map_id (lid : Nat) (u : LectureUpdates) (hu : u.newId = none) :
    ∀ (l : List Lecture) (ls : List Lecture), update_in_list lid u l = some ls →
      ls.map (·.id) = l.map (·.id) := by
  intro l
  induction l with
  | nil => intro ls h; simp [update_in_list] at h
  | cons a rest ih =>
    intro ls h
    by_cases hid : a.id = lid
    · simp only [update_in_list, if_pos hid] at h
      cases h
      simp [applyUpdates, hu]
    · simp only [update_in_list, if_neg hid] at h
      cases hrec : update_in_list lid u rest with
      | none => rw [hrec] at h; simp at h
      | some ls' =>
        rw [hrec] at h
        simp only [Option.map_some'] at h
        cases h
        simp [ih ls' hrec]

/-- The canonical-id invariant: the stored ids are exactly positions
`1, …, n` in order. -/
def canonIds (db : DB) : Prop :=
  db.lectures.map (·.id) = List.range' 1 db.lectures.length

theorem canonIds_initial : canonIds initial_data := by
  simp [canonIds, initial_data]

theorem canonIds_add (ld : LectureData) (now : String) (db : DB)
    (h : canonIds db) : canonIds (add_modify ld now db) := by
  unfold canonIds at h ⊢
  cases hd : ld.duration <;>
    simp [add_modify, hd, List.map_append, h, List.range'_concat, Nat.add_comm]

theorem reachableNoDel_canon :
    ∀ f, ReachableNoDel f → ∀ db, f = some db → canonIds db := by
  intro f hr
  induction hr with
  | init =>
    intro db h
    cases h
    exact canonIds_initial
  | add f ok ld now _ ih =>
    intro db h
    cases f with
    | none => simp [add_lecture, load_database] at h
    | some db0 =>
      cases ok with
      | false =>
        simp [add_lecture, load_database, save_database] at h
        cases h
        exact ih _ rfl
      | true =>
        simp [add_lecture, load_database, save_database] at h
        cases h
        exact canonIds_add ld now _ (ih _ rfl)
  | upd f ok lid u hu _ ih =>
    intro db h
    cases f with
    | none => simp [update_lecture, load_database] at h
    | some db0 =>
      simp only [update_lecture, load_database] at h
      cases hul : update_in_list lid u db0.lectures with
      | none =>
        rw [hul] at h
        cases h
        exact ih _ rfl
      | some ls =>
        rw [hul] at h
        cases ok with
        | false =>
          simp [save_database] at h
          cases h
          exact ih _ rfl
        | true =>
          simp [save_database] at h
          cases h
          unfold canonIds
          simp only []
          rw [update_in_list_map_id lid u hu db0.lectures ls hul]
          have hlen : ls.length = db0.lectures.length := by
            have := congrArg List.length (update_in_list_map_id lid u hu db0.lectures ls hul)
            simpa using this
          rw [hlen]
          exact ih _ rfl

/-- C1, amended: without `delete_lecture` (and with updates that do not set
the id key), every reachable database has ids `1, …, n` in order, hence
unique and strictly increasing in order of addition. -/
theorem lecture_ids_unique_monotonic_no_delete
    (f : Option DB) (hr : ReachableNoDel f) (db : DB) (hf : f = some db) :
    db.lectures.map (·.id) = List.range' 1 db.lectures.length ∧
    (db.lectures.map (·.id)).Nodup ∧
    List.Pairwise (· < ·) (db.lectures.map (·.id)) := by
  have h := reachableNoDel_canon f hr db hf
  unfold canonIds at h
  refine ⟨h, ?_, ?_⟩
  · rw [h]; exact List.nodup_range' 1 db.lectures.length
  · rw [h]; exact List.pairwise_lt_range' 1 db.lectures.length

/-- Witness for the amended C1 theorem at a concrete one-step state. -/
theorem lecture_ids_unique_monotonic_no_delete_witness :
    (add_modify ⟨some 5, "p"⟩ "t" initial_data).lectures.map (·.id) =
      List.range' 1 (add_modify ⟨some 5, "p"⟩ "t" initial_data).lectures.length ∧
    ((add_modify ⟨some 5, "p"⟩ "t" initial_data).lectures.map (·.id)).Nodup ∧
    List.Pairwise (· < ·) ((add_modify ⟨some 5, "p"⟩ "t" initial_data).lectures.map (·.id)) :=
  lecture_ids_unique_monotonic_no_delete
    (add_lecture true ⟨some 5, "p"⟩ "t" (some initial_data)).2
    (ReachableNoDel.add (some initial_data) true ⟨some 5, "p"⟩ "t" ReachableNoDel.init)
    (add_modify ⟨some 5, "p"⟩ "t" initial_data) rfl

/-- The four-step trace refuting C1 as stated: add two lectures, delete the
first, add a third.  `add_lecture` assigns `len(lectures) + 1`, so the third
lecture reuses id 2. -/
def cexTraceFile : Option DB :=
  (add_lecture true ⟨none, "p3"⟩ "t3"
    (delete_lecture true 1
      (add_lecture true ⟨none, "p2"⟩ "t2"
        (add_lecture true ⟨none, "p1"⟩ "t1" (some initial_data)).2).2).2).2

/-- C1, counterexample: a database state reachable through
`add_lecture`/`delete_lecture` whose id list is `[2, 2]` — neither unique
nor strictly greater than every earlier id. -/
theorem lecture_ids_collide_after_delete :
    Reachable cexTraceFile ∧ idsOf cexTraceFile = [2, 2] ∧
      ¬ (idsOf cexTraceFile).Nodup := by
  refine ⟨?_, by decide, by decide⟩
  exact Reachable.add _ true ⟨none, "p3"⟩ "t3"
    (Reachable.del _ true 1
      (Reachable.add _ true ⟨none, "p2"⟩ "t2"
        (Reachable.add _ true ⟨none, "p1"⟩ "t1" Reachable.init)))

/-- C4, counterexample: `clear_all` performs no read at all.  On a file
whose load would fail it still returns `True` and replaces the persisted
document (with the fixed initial document), contradicting the claim that
every mutating operation returns a failure value and leaves the document
unchanged when loading fails. -/
theorem clear_all_writes_without_reading :
    clear_all true none = (true, some clear_initial_data) ∧
      (clear_all true none).1 = true ∧ (clear_all true none).2 ≠ none := by
  refine ⟨rfl, rfl, ?_⟩
  decide

/-- C4, amended: `add_lecture`, `update_lecture`, `delete_lecture`,
`update_settings` and `add_quiz_result` each follow the
load-whole-document / modify-in-memory / single-whole-document-write shape
and return their failure value with the file untouched when loading fails;
`clear_all` reads nothing and unconditionally writes the fixed initial
document. -/
theorem state_ops_read_modify_write :
    (∀ ok ld now, add_lecture ok ld now none = (none, none)) ∧
    (∀ ok lid u, update_lecture ok lid u none = (false, none)) ∧
    (∀ ok lid, delete_lecture ok lid none = (false, none)) ∧
    (∀ ok upd, update_settings ok upd none = (false, none)) ∧
    (∀ ok p now, add_quiz_result ok p now none = (false, none)) ∧
    (∀ ld now db, add_lecture true ld now (some db) =
      (some (db.lectures.length + 1), some (add_modify ld now db))) ∧
    (∀ lid u db ls, update_in_list lid u db.lectures = some ls →
      update_lecture true lid u (some db) = (true, some { db with lectures := ls })) ∧
    (∀ lid u db, update_in_list lid u db.lectures = none →
      ∀ ok, update_lecture ok lid u (some db) = (false, some db)) ∧
    (∀ lid db, delete_lecture true lid (some db) = (true, some (delete_modify lid db))) ∧
    (∀ upd db, update_settings true upd (some db) = (true, some (settings_modify upd db))) ∧
    (∀ p now db, add_quiz_result true p now (some db) =
      (true, some (quiz_result_modify p now db))) ∧
    (∀ f, clear_all true f = (true, some clear_initial_data)) := by
  refine ⟨fun ok ld now => by cases ok <;> rfl,
          fun ok lid u => rfl,
          fun ok lid => by cases ok <;> rfl,
          fun ok upd => by cases ok <;> rfl,
          fun ok p now => by cases ok <;> rfl,
          fun ld now db => rfl,
          ?_, ?_,
          fun lid db => rfl,
          fun upd db => rfl,
          fun p now db => rfl,
          fun f => rfl⟩
  · intro lid u db ls h
    simp [update_lecture, load_database, h, save_database]
  · intro lid u db h ok
    simp [update_lecture, load_database, h]

/-- Witness for the amended C4 theorem: the update-not-found clause at a
concrete database. -/
theorem state_ops_read_modify_write_witness :
    update_lecture true 7 ⟨none, none, none, none⟩ (some initial_data) =
      (false, some initial_data) :=
  state_ops_read_modify_write.2.2.2.2.2.2.2.1 7 ⟨none, none, none, none⟩
    initial_data (by decide) true

/-- C7: the analytics counters only roll forward.  A successful
`add_lecture` bumps `total_lectures` by exactly one and adds the duration
to `total_duration` when one is present; a successful `add_quiz_result` or
`increment_quiz_count` bumps `total_quizzes` by exactly one; a successful
`delete_lecture` leaves the analytics object unchanged. -/
theorem analytics_counters_rolling :
    (∀ ok ld now db r f, add_lecture ok ld now (some db) = (some r, f) →
      ∃ db', f = some db' ∧
        db'.analytics.total_lectures = db.analytics.total_lectures + 1 ∧
        (∀ d, ld.duration = some d →
          db'.analytics.total_duration = db.analytics.total_duration + d) ∧
        (ld.duration = none →
          db'.analytics.total_duration = db.analytics.total_duration) ∧
        db'.analytics.total_quizzes = db.analytics.total_quizzes) ∧
    (∀ ok p now db f, add_quiz_result ok p now (some db) = (true, f) →
      ∃ db', f = some db' ∧
        db'.analytics.total_quizzes = db.analytics.total_quizzes + 1 ∧
        db'.analytics.total_lectures = db.analytics.total_lectures ∧
        db'.analytics.total_duration = db.analytics.total_duration) ∧
    (∀ ok db f, increment_quiz_count ok (some db) = (true, f) →
      ∃ db', f = some db' ∧
        db'.analytics.total_quizzes = db.analytics.total_quizzes + 1) ∧
    (∀ ok lid db f, delete_lecture ok lid (some db) = (true, f) →
      ∃ db', f = some db' ∧ db'.analytics = db.analytics) := by
  refine ⟨?_, ?_, ?_, ?_⟩
  · intro ok ld now db r f h
    cases ok with
    | false => simp [add_lecture, load_database, save_database] at h
    | true =>
      simp only [add_lecture, load_database, save_database, if_pos] at h
      refine ⟨add_modify ld now db, ?_⟩
      obtain ⟨-, rfl⟩ := h
      cases hd : ld.duration <;>
        simp [add_modify, hd]
  · intro ok p now db f h
    cases ok with
    | false => simp [add_quiz_result, load_database, save_database] at h
    | true =>
      simp only [add_quiz_result, load_database, save_database, if_pos] at h
      refine ⟨quiz_result_modify p now db, ?_⟩
      obtain ⟨-, rfl⟩ := h
      simp [quiz_result_modify]
  · intro ok db f h
    cases ok with
    | false => simp [increment_quiz_count, load_database, save_database] at h
    | true =>
      simp only [increment_quiz_count, load_database, save_database, if_pos] at h
      refine ⟨incr_quiz_modify db, ?_⟩
      obtain ⟨-, rfl⟩ := h
      simp [incr_quiz_modify]
  · intro ok lid db f h
    cases ok with
    | false => simp [delete_lecture, load_database, save_database] at h
    | true =>
      simp only [delete_lecture, load_database, save_database, if_pos] at h
      refine ⟨delete_modify lid db, ?_⟩
      obtain ⟨-, rfl⟩ := h
      simp [delete_modify]

/-- Witness for C7: a successful concrete `add_lecture` with a duration. -/
theorem analytics_counters_rolling_witness :
    (add_modify ⟨some 30, "p"⟩ "t" initial_data).analytics.total_lectures =
      initial_data.analytics.total_lectures + 1 ∧
    (add_modify ⟨some 30, "p"⟩ "t" initial_data).analytics.total_duration =
      initial_data.analytics.total_duration + 30 := by
  obtain ⟨db', heq, h1, h2, -, -⟩ :=
    analytics_counters_rolling.1 true ⟨some 30, "p"⟩ "t" initial_data 1
      (some (add_modify ⟨some 30, "p"⟩ "t" initial_data)) (by decide)
  obtain rfl := (Option.some.inj heq).symm
  exact ⟨h1, h2 30 rfl⟩

/-! ### Lookup lemmas for `dict.update` on the settings object -/

theorem lookup_append {α β : Type} [BEq α] (l₁ l₂ : List (α × β)) (k : α) :
    (l₁ ++ l₂).lookup k =
      match l₁.lookup k with
      | some v => some v
      | none => l₂.lookup k := by
  induction l₁ with
  | nil => simp [List.lookup]
  | cons p rest ih =>
    cases p with
    | mk k' v =>
      by_cases hk : (k == k') = true
      · simp [List.lookup, hk]
      · simp only [List.cons_append, List.lookup, hk]
        exact ih

theorem lookup_map_update (upd : Settings) :
    ∀ (base : Settings) (k : String),
      (base.map (fun p => (p.1, ((upd.lookup p.1).getD p.2)))).lookup k =
        (base.lookup k).map (fun v => (upd.lookup k).getD v) := by
  intro base
  induction base with
  | nil => intro k; simp [List.lookup]
  | cons p rest ih =>
    intro k
    cases p with
    | mk k' v =>
      by_cases hk : (k == k') = true
      · have : k = k' := by simpa [beq_iff_eq] using hk
        subst this
        simp [List.lookup, hk]
      · simp only [List.map_cons, List.lookup, hk]
        exact ih k

theorem lookup_filter_new (base : Settings) :
    ∀ (upd : Settings) (k : String), base.lookup k = none →
      (upd.filter (fun p => (base.lookup p.1).isNone)).lookup k = upd.lookup k := by
  intro upd
  induction upd with
  | nil => intro k _; simp
  | cons q rest ih =>
    intro k hk
    cases q with
    | mk kq vq
    =>
      by_cases hq : (k == kq) = true
      · have hkq : k = kq := by simpa [beq_iff_eq] using hq
        subst hkq
        simp [List.filter, hk, List.lookup, hq]
      · cases hb : (base.lookup kq).isNone with
        | true =>
          simp only [List.filter, hb, List.lookup, hq]
          exact ih k hk
        | false =>
          simp only [List.filter, hb, List.lookup, hq]
          exact ih k hk

/-- `dict.update` lookup characterisation: updated keys take the new value,
all other keys keep their previous value. -/
theorem dictUpdate_lookup (base upd : Settings) (k : String) :
    (dictUpdate base upd).lookup k =
      match upd.lookup k with
      | some v => some v
      | none => base.lookup k := by
  unfold dictUpdate
  rw [lookup_append, lookup_map_update]
  cases hb : base.lookup k with
  | some v =>
    cases hu : upd.lookup k <;> simp [hu]
  | none =>
    rw [lookup_filter_new base upd k hb]
    cases hu : upd.lookup k <;> simp [hu]

/-- C10: a successful `update_settings` modifies only the settings object —
the lectures array, the analytics counters and the `quiz_results` key are
unchanged — and settings keys not named in the update keep their previous
values (named keys take the updated value). -/
theorem update_settings_frame
    (ok : Bool) (upd : Settings) (db : DB) (f : Option DB)
    (h : update_settings ok upd (some db) = (true, f)) :
    ∃ db', f = some db' ∧
      db'.lectures = db.lectures ∧
      db'.analytics = db.analytics ∧
      db'.quiz_results = db.quiz_results ∧
      (∀ k, upd.lookup k = none → db'.settings.lookup k = db.settings.lookup k) ∧
      (∀ k v, upd.lookup k = some v → db'.settings.lookup k = some v) := by
  cases ok with
  | false => simp [update_settings, load_database, save_database] at h
  | true =>
    simp only [update_settings, load_database, save_database, if_pos] at h
    refine ⟨settings_modify upd db, ?_⟩
    obtain ⟨-, rfl⟩ := h
    refine ⟨rfl, rfl, rfl, rfl, ?_, ?_⟩
    · intro k hk
      simp [settings_modify, dictUpdate_lookup, hk]
    · intro k v hk
      simp [settings_modify, dictUpdate_lookup, hk]

/-- Witness for C10 at a concrete update. -/
theorem update_settings_frame_witness :
    (settings_modify [("language", "de")] initial_data).lectures =
      initial_data.lectures ∧
    (settings_modify [("language", "de")] initial_data).analytics =
      initial_data.analytics ∧
    (settings_modify [("language", "de")] initial_data).settings.lookup "language" =
      some "de" ∧
    (settings_modify [("language", "de")] initial_data).settings.lookup "whisper_model" =
      initial_data.settings.lookup "whisper_model" := by
  obtain ⟨db', heq, hl, ha, -, hkeep, hupd⟩ :=
    update_settings_frame true [("language", "de")] initial_data
      (some (settings_modify [("language", "de")] initial_data)) (by decide)
  obtain rfl := (Option.some.inj heq).symm
  exact ⟨hl, ha, hupd "language" "de" (by decide), hkeep "whisper_model" (by decide)⟩

/-! ### QuizGenerator (src/processors/quiz_generator.py)

Questions are one record type covering the three shapes produced by the
generators (`options` is empty for true/false and fill-in-the-blank
questions, exactly as those dicts carry no `options` key).  The external
calls — `sent_tokenize`, `random.shuffle`, `random.choice`,
`random.randint` — and the float expressions `int(n * 0.6)` /
`int(n * 0.2)` are oracle fields: fixed functions from arguments to
results.  `sent_tokenize` may raise (e.g. missing NLTK data); it is the
body's only raising call once `text` is a string, and the method's broad
`try/except` turns that into the `[]` sentinel. -/

structure Question where
  qtype : String
  question : String
  options : List (String × String)
  correct_answer : String
  explanation : String
  deriving DecidableEq, Repr

structure QuizOracles where
  sentTok : String → Except String (List String)
  shuffleS : List String → List String
  shuffleQ : List Question → List Question
  choiceS : List String → String
  choicePair : List (Nat × String) → Nat × String
  randint : Nat → Nat → Nat
  intMul06 : Nat → Nat
  intMul02 : Nat → Nat

/-- The characters stripped by `w.strip('.,!?;:')`. -/
def punctChars : List Char := ['.', ',', '!', '?', ';', ':']

/-- `w[0].isupper()` for a whitespace-split word. -/
def headUpper (w : String) : Bool :=
  match w.data with
  | [] => false
  | c :: _ => c.isUpper

/-- `_generate_distractors` : three pattern-based distractors for long
words, three title-case alternatives, then generic options; first four
kept.  (`difficulty` is accepted and ignored, as in the source.) -/
def gen_distractors (ca : String) (difficulty : String) : List String :=
  let ds : List String :=
    if ca.length > 6 then
      [pyTakeStr 3 ca ++ "ology", pyDropLastStr 2 ca ++ "tion", ca ++ "al"]
    else []
  let ds := ds ++ (if pyIstitle ca then ["Alternative", "Different", "Another"] else [])
  let ds := ds ++ ["None of the above", "All of the above", "Both A and B", "None"]
  let _ := difficulty
  ds.take 4

/-- The key terms of a sentence: words longer than 4 characters that are
capitalised or longer than 8 characters, punctuation-stripped. -/
def keyTermsOf (s : String) : List String :=
  ((pySplitWs s).filter (fun w => w.length > 4 && (headUpper w || w.length > 8))).map
    (pyStripChars punctChars)

/-- Build one multiple-choice question from a sentence. -/
def mkMCQ (o : QuizOracles) (s : String) (key_terms : List String)
    (difficulty : String) : Question :=
  let key_term := o.choiceS key_terms
  let question_text := pyReplaceAll key_term "______" s
  let distractors := gen_distractors key_term difficulty
  let options := o.shuffleS (key_term :: distractors.take 3)
  { qtype := "multiple_choice"
    question := "What fits best in the blank?\n\n" ++ question_text
    options := options.enum.map (fun p => (pyChr (65 + p.1), p.2))
    correct_answer := pyChr (65 + options.indexOf key_term)
    explanation := "The correct answer is from the lecture: \x27" ++ s ++ "\x27" }

/-- The `_generate_mcq` loop over the shuffled candidate sentences. -/
def genMCQ (o : QuizOracles) (difficulty : String) (num : Nat) :
    List String → List Question → List String → List Question
  | [], acc, _ => acc
  | s :: rest, acc, used =>
    if num ≤ acc.length then acc
    else if used.contains s then genMCQ o difficulty num rest acc used
    else
      let key_terms := keyTermsOf s
      if key_terms.isEmpty then genMCQ o difficulty num rest acc used
      else genMCQ o difficulty num rest (acc ++ [mkMCQ o s key_terms difficulty]) (used ++ [s])

/-- `_generate_mcq`. -/
def generate_mcq (o : QuizOracles) (sentences : List String) (num : Nat)
    (difficulty : String) : List Question :=
  let cand := sentences.filter
    (fun s => 8 ≤ (pySplitWs s).length && (pySplitWs s).length ≤ 30)
  let cand := if cand.isEmpty then sentences else cand
  genMCQ o difficulty num (o.shuffleS cand) [] []

/-- The word-boundary substitutions tried by `_create_false_statement`. -/
def falseMods : List (String × String) :=
  [("not", ""), ("is", "is not"), ("can", "cannot"), ("will", "will not"),
   ("always", "never"), ("never", "always")]

/-- Try each substitution in order; the first that changes the sentence wins. -/
def tryMods : List (String × String) → String → Option String
  | [], _ => none
  | (pat, rep) :: rest, s =>
    let m := reSubWordFirst pat rep s
    if m ≠ s then some m else tryMods rest s

/-- `_create_false_statement`. -/
def create_false_statement (randint : Nat → Nat → Nat) (s : String) : String :=
  match tryMods falseMods s with
  | some m => m
  | none =>
    match reFindNumbers s with
    | [] => s
    | oldNum :: _ =>
      let newNum := toString (pyDigitsToNat oldNum + randint 1 10)
      pyReplaceFirst oldNum newNum s

/-- The `_generate_true_false` loop over the enumerated sentence slice. -/
def genTF (o : QuizOracles) (num : Nat) :
    List (Nat × String) → List Question → List Question
  | [], acc => acc
  | (i, s) :: rest, acc =>
    if num ≤ acc.length then acc
    else if i % 2 = 0 then
      genTF o num rest (acc ++
        [Question.mk "true_false" s [] "True"
          "This statement is directly from the lecture."])
    else
      let m := create_false_statement o.randint s
      if m ≠ s then
        genTF o num rest (acc ++
          [Question.mk "true_false" m [] "False"
            ("The correct statement is: \x27" ++ s ++ "\x27")])
      else genTF o num rest acc

/-- `_generate_true_false`. -/
def generate_true_false (o : QuizOracles) (sentences : List String) (num : Nat) :
    List Question :=
  let cand := sentences.filter (fun s => 6 ≤ (pySplitWs s).length)
  if cand.isEmpty then []
  else genTF o num (((o.shuffleS cand).take (num * 2)).enum) []

/-- Words not blanked out by `_generate_fill_blank`. -/
def fibStopWords : List String := ["which", "where", "there", "these", "those"]

/-- The `_generate_fill_blank` loop over the sliced candidate sentences. -/
def genFIB (o : QuizOracles) : List String → List Question → List Question
  | [], acc => acc
  | s :: rest, acc =>
    let words := pySplitWs s
    let key_words := words.enum.filter
      (fun p => p.2.length > 4 && !(fibStopWords.contains (pyLower p.2)))
    if key_words.isEmpty then genFIB o rest acc
    else
      let pr := o.choicePair key_words
      let kw := pyStripChars punctChars pr.2
      let qtext := String.intercalate " " (words.set pr.1 "______")
      genFIB o rest (acc ++
        [Question.mk "fill_blank" ("Fill in the blank:\n\n" ++ qtext) []
          (pyLower (pyStripChars punctChars kw))
          ("The complete sentence is: \x27" ++ s ++ "\x27")])

/-- `_generate_fill_blank` (its count is `num_questions - len(questions)` at
the call site, which can be negative, hence the `Int` slice bound). -/
def generate_fill_blank (o : QuizOracles) (sentences : List String) (numF : Int) :
    List Question :=
  let cand := sentences.filter (fun s => 8 ≤ (pySplitWs s).length)
  if cand.isEmpty then []
  else genFIB o (pySliceTo numF (o.shuffleS cand)) []

/-- The body of `generate_quiz` after sentence tokenization: reduce the
requested count to the sentence count when shorter, generate the three
question groups, shuffle, and keep the first `num` questions. -/
def generateQuizCore (o : QuizOracles) (sentences : List String) (num0 : Nat)
    (difficulty : String) : List Question :=
  let num := if sentences.length < num0 then sentences.length else num0
  let qs := generate_mcq o sentences (o.intMul06 num) difficulty
  let qs := qs ++ generate_true_false o sentences (o.intMul02 num)
  let qs := qs ++ generate_fill_blank o sentences ((num : Int) - qs.length)
  (o.shuffleQ qs).take num

/-- `generate_quiz` : the whole body sits in a `try/except` that returns
the `[]` sentinel, so a raising `sent_tokenize` never propagates. -/
def generate_quiz (o : QuizOracles) (text : String) (num0 : Nat)
    (difficulty : String) : Except String (List Question) :=
  match o.sentTok text with
  | .error _ => .ok []
  | .ok sentences => .ok (generateQuizCore o sentences num0 difficulty)

/-- The per-question check of `grade_quiz`: fill-blank answers compare
case-insensitively after stripping, all other types compare exactly. -/
def judgeB (q : Question) (ua : String) : Bool :=
  if q.qtype = "fill_blank"
  then pyStrip (pyLower ua) == pyStrip (pyLower q.correct_answer)
  else ua == q.correct_answer

structure GradeEntry where
  question_num : Nat
  correct : Bool
  user_answer : String
  correct_answer : String
  explanation : String
  deriving DecidableEq, Repr

structure GradeResult where
  score : ℚ
  correct : Nat
  total : Nat
  results : List GradeEntry
  deriving DecidableEq, Repr

/-- The grading loop: `i` is the enumeration index, answers are read with
`answers.get(i, "")`. -/
def gradeAux (answers : Nat → Option String) : Nat → List Question → Nat × List GradeEntry
  | _, [] => (0, [])
  | i, q :: rest =>
    let ua := (answers i).getD ""
    let ic := judgeB q ua
    let r := gradeAux answers (i + 1) rest
    ((if ic then 1 else 0) + r.1,
      { question_num := i + 1, correct := ic, user_answer := ua,
        correct_answer := q.correct_answer, explanation := q.explanation } :: r.2)

/-- `grade_quiz` : count correct answers and compute the percentage score,
guarding the division when there are no questions.  (The surrounding
`try/except` returns `None` on an exception; on records carrying the
`type` and `correct_answer` keys — every question the generators produce —
the body cannot raise, so the model is the plain result.  Python's float
division is modelled as exact rational division.) -/
def grade_quiz (questions : List Question) (answers : Nat → Option String) : GradeResult :=
  let total := questions.length
  let cr := gradeAux answers 0 questions
  { score := if 0 < total then (cr.1 : ℚ) / total * 100 else 0
    correct := cr.1
    total := total
    results := cr.2 }

/-! ### Theorems about the quiz generator -/

theorem mem_genMCQ (o : QuizOracles) (difficulty : String) (num : Nat) :
    ∀ (cand : List String) (acc : List Question) (used : List String) (q : Question),
      q ∈ genMCQ o difficulty num cand acc used →
        q ∈ acc ∨ q.qtype = "multiple_choice" := by
  intro cand
  induction cand with
  | nil => intro acc used q h; exact Or.inl h
  | cons s rest ih =>
    intro acc used q h
    simp only [genMCQ] at h
    by_cases h1 : num ≤ acc.length
    · rw [if_pos h1] at h; exact Or.inl h
    · rw [if_neg h1] at h
      by_cases h2 : used.contains s
      · rw [if_pos h2] at h; exact ih acc used q h
      · rw [if_neg h2] at h
        by_cases h3 : (keyTermsOf s).isEmpty
        · rw [if_pos h3] at h; exact ih acc used q h
        · rw [if_neg h3] at h
          rcases ih _ _ q h with hin | hty
          · rcases List.mem_append.mp hin with hin | hin
            · exact Or.inl hin
            · right
              have : q = mkMCQ o s (keyTermsOf s) difficulty := by simpa using hin
              rw [this]; rfl
          · exact Or.inr hty

theorem mem_genTF (o : QuizOracles) (num : Nat) :
    ∀ (l : List (Nat × String)) (acc : List Question) (q : Question),
      q ∈ genTF o num l acc → q ∈ acc ∨ q.qtype = "true_false" := by
  intro l
  induction l with
  | nil => intro acc q h; exact Or.inl h
  | cons p rest ih =>
    intro acc q h
    obtain ⟨i, s⟩ := p
    simp only [genTF] at h
    by_cases h1 : num ≤ acc.length
    · rw [if_pos h1] at h; exact Or.inl h
    · rw [if_neg h1] at h
      by_cases h2 : i % 2 = 0
      · rw [if_pos h2] at h
        rcases ih _ q h with hin | hty
        · rcases List.mem_append.mp hin with hin | hin
          · exact Or.inl hin
          · right
            have : q = Question.mk "true_false" s [] "True"
                "This statement is directly from the lecture." := by simpa using hin
            rw [this]
        · exact Or.inr hty
      · rw [if_neg h2] at h
        by_cases h3 : create_false_statement o.randint s ≠ s
        · rw [if_pos h3] at h
          rcases ih _ q h with hin | hty
          · rcases List.mem_append.mp hin with hin | hin
            · exact Or.inl hin
            · right
              have : q = Question.mk "true_false" (create_false_statement o.randint s) []
                  "False" ("The correct statement is: \x27" ++ s ++ "\x27") := by
                simpa using hin
              rw [this]
          · exact Or.inr hty
        · rw [if_neg h3] at h
          exact ih _ q h

theorem mem_genFIB (o : QuizOracles) :
    ∀ (l : List String) (acc : List Question) (q : Question),
      q ∈ genFIB o l acc → q ∈ acc ∨ q.qtype = "fill_blank" := by
  intro l
  induction l with
  | nil => intro acc q h; exact Or.inl h
  | cons s rest ih =>
    intro acc q h
    simp only [genFIB] at h
    by_cases h1 : ((pySplitWs s).enum.filter
        (fun p => p.2.length > 4 && !(fibStopWords.contains (pyLower p.2)))).isEmpty
    · rw [if_pos h1] at h; exact ih acc q h
    · rw [if_neg h1] at h
      rcases ih _ q h with hin | hty
      · rcases List.mem_append.mp hin with hin | hin
        · exact Or.inl hin
        · right
          simp only [List.mem_singleton] at hin
          rw [hin]
      · exact Or.inr hty

/-- C5: `generate_quiz` returns at most `num_questions` questions, the
requested count is first reduced to the number of sentences when the text
tokenizes into fewer sentences, and every returned question carries exactly
one of the three types.  (`random.shuffle` is assumed to permute, which
Python guarantees.) -/
theorem generate_quiz_bounds
    (o : QuizOracles) (text : String) (num0 : Nat) (difficulty : String)
    (sents : List String)
    (hTok : o.sentTok text = Except.ok sents)
    (hShuf : ∀ l : List Question, (o.shuffleQ l).Perm l) :
    ∃ qs, generate_quiz o text num0 difficulty = Except.ok qs ∧
      qs.length ≤ num0 ∧
      (sents.length < num0 → qs.length ≤ sents.length) ∧
      ∀ q ∈ qs, q.qtype = "multiple_choice" ∨ q.qtype = "true_false" ∨
        q.qtype = "fill_blank" := by
  refine ⟨generateQuizCore o sents num0 difficulty, ?_, ?_, ?_, ?_⟩
  · simp [generate_quiz, hTok]
  · unfold generateQuizCore
    refine (List.length_take_le _ _).trans ?_
    by_cases h : sents.length < num0
    · rw [if_pos h]; exact Nat.le_of_lt h
    · rw [if_neg h]
  · intro h
    unfold generateQuizCore
    rw [if_pos h]
    exact List.length_take_le _ _
  · intro q hq
    unfold generateQuizCore at hq
    have hq' := List.take_subset _ _ hq
    have hq'' := (hShuf _).mem_iff.mp hq'
    rcases List.mem_append.mp hq'' with hq3 | hfib
    · rcases List.mem_append.mp hq3 with hmcq | htf
      · rcases mem_genMCQ o difficulty _ _ _ _ q hmcq with h | h
        · simp at h
        · exact Or.inl h
      · unfold generate_true_false at htf
        by_cases hc : (sents.filter (fun s => 6 ≤ (pySplitWs s).length)).isEmpty
        · rw [if_pos hc] at htf; simp at htf
        · rw [if_neg hc] at htf
          rcases mem_genTF o _ _ _ q htf with h | h
          · simp at h
          · exact Or.inr (Or.inl h)
    · unfold generate_fill_blank at hfib
      by_cases hc : (sents.filter (fun s => 8 ≤ (pySplitWs s).length)).isEmpty
      · rw [if_pos hc] at hfib; simp at hfib
      · rw [if_neg hc] at hfib
        rcases mem_genFIB o _ _ q hfib with h | h
        · simp at h
        · exact Or.inr (Or.inr h)

/-- A concrete oracle assignment: identity shuffles, first-element choices,
floor arithmetic for the float expressions. -/
def sampleOracles : QuizOracles :=
  { sentTok := fun t => Except.ok [t]
    shuffleS := id
    shuffleQ := id
    choiceS := fun l => l.headD ""
    choicePair := fun l => l.headD (0, "")
    randint := fun a _ => a
    intMul06 := fun n => n * 6 / 10
    intMul02 := fun n => n * 2 / 10 }

/-- Witness for C5 at a concrete text and oracle. -/
theorem generate_quiz_bounds_witness :
    (generate_quiz sampleOracles "The mitochondria is the powerhouse of the cell"
      3 "medium").isOk = true := by
  obtain ⟨qs, heq, -, -, -⟩ :=
    generate_quiz_bounds sampleOracles "The mitochondria is the powerhouse of the cell"
      3 "medium" ["The mitochondria is the powerhouse of the cell"] rfl
      (fun l => List.Perm.refl l)
  rw [heq]
  rfl

/-- C3: with the external calls (`sent_tokenize`, `random.shuffle`,
`random.choice`, `random.randint`, the `int(n * 0.6)` / `int(n * 0.2)`
float computations) modelled as fixed functions from their arguments to
their results, `generate_quiz` is deterministic: two runs with identical
inputs and identical external responses produce identical results. -/
theorem generate_quiz_deterministic
    (o₁ o₂ : QuizOracles) (text : String) (num0 : Nat) (difficulty : String)
    (h1 : ∀ s, o₁.sentTok s = o₂.sentTok s)
    (h2 : ∀ l, o₁.shuffleS l = o₂.shuffleS l)
    (h3 : ∀ l, o₁.shuffleQ l = o₂.shuffleQ l)
    (h4 : ∀ l, o₁.choiceS l = o₂.choiceS l)
    (h5 : ∀ l, o₁.choicePair l = o₂.choicePair l)
    (h6 : ∀ a b, o₁.randint a b = o₂.randint a b)
    (h7 : ∀ n, o₁.intMul06 n = o₂.intMul06 n)
    (h8 : ∀ n, o₁.intMul02 n = o₂.intMul02 n) :
    generate_quiz o₁ text num0 difficulty = generate_quiz o₂ text num0 difficulty := by
  have ho : o₁ = o₂ := by
    cases o₁
    cases o₂
    simp only [QuizOracles.mk.injEq]
    exact ⟨funext h1, funext h2, funext h3, funext h4, funext h5,
      funext (fun a => funext (h6 a)), funext h7, funext h8⟩
  rw [ho]

/-- Witness for C3: two runs with the same concrete oracle agree. -/
theorem generate_quiz_deterministic_witness :
    generate_quiz sampleOracles "Cells divide." 4 "easy" =
      generate_quiz sampleOracles "Cells divide." 4 "easy" :=
  generate_quiz_deterministic sampleOracles sampleOracles "Cells divide." 4 "easy"
    (fun _ => rfl) (fun _ => rfl) (fun _ => rfl) (fun _ => rfl) (fun _ => rfl)
    (fun _ _ => rfl) (fun _ => rfl) (fun _ => rfl)

/-! ### Theorems about `grade_quiz` (C8) -/

theorem gradeAux_fst_le (answers : Nat → Option String) :
    ∀ (qs : List Question) (i : Nat), (gradeAux answers i qs).1 ≤ qs.length := by
  intro qs
  induction qs with
  | nil => intro i; simp [gradeAux]
  | cons q rest ih =>
    intro i
    simp only [gradeAux, List.length_cons]
    have := ih (i + 1)
    cases judgeB q ((answers i).getD "") <;> simp <;> omega

theorem gradeAux_snd_length (answers : Nat → Option String) :
    ∀ (qs : List Question) (i : Nat), (gradeAux answers i qs).2.length = qs.length := by
  intro qs
  induction qs with
  | nil => intro i; simp [gradeAux]
  | cons q rest ih =>
    intro i
    simp [gradeAux, ih (i + 1)]

theorem gradeAux_snd_get (answers : Nat → Option String) :
    ∀ (qs : List Question) (i j : Nat) (h : j < (gradeAux answers i qs).2.length)
      (h' : j < qs.length),
      (gradeAux answers i qs).2.get ⟨j, h⟩ =
        { question_num := i + j + 1
          correct := judgeB (qs.get ⟨j, h'⟩) ((answers (i + j)).getD "")
          user_answer := (answers (i + j)).getD ""
          correct_answer := (qs.get ⟨j, h'⟩).correct_answer
          explanation := (qs.get ⟨j, h'⟩).explanation } := by
  intro qs
  induction qs with
  | nil => intro i j h h'; simp at h'
  | cons q rest ih =>
    intro i j h h'
    cases j with
    | zero => simp [gradeAux]
    | succ j' =>
      have hlt : j' < (gradeAux answers (i + 1) rest).2.length := by
        rw [gradeAux_snd_length]
        exact Nat.lt_of_succ_lt_succ h'
      have := ih (i + 1) j' hlt (Nat.lt_of_succ_lt_succ h')
      simp only [gradeAux, List.get_cons_succ]
      rw [this]
      have harith : i + 1 + j' = i + (j' + 1) := by omega
      simp [harith]

/-- C8: `grade_quiz` returns `total = len(questions)`,
`0 ≤ correct ≤ total`, `score = correct / total * 100` with the division
guarded (`score = 0` on an empty quiz), so `0 ≤ score ≤ 100`; a fill-blank
answer is judged correct iff it equals the stored answer case-insensitively
after stripping surrounding whitespace, every other type by exact string
equality. -/
theorem grade_quiz_spec (qs : List Question) (answers : Nat → Option String) :
    (grade_quiz qs answers).total = qs.length ∧
    (grade_quiz qs answers).correct ≤ (grade_quiz qs answers).total ∧
    (grade_quiz qs answers).score =
      (if 0 < qs.length then ((grade_quiz qs answers).correct : ℚ) / qs.length * 100
       else 0) ∧
    0 ≤ (grade_quiz qs answers).score ∧
    (grade_quiz qs answers).score ≤ 100 ∧
    (qs = [] → (grade_quiz qs answers).score = 0) ∧
    (grade_quiz qs answers).results.length = qs.length ∧
    (∀ (i : Nat) (h : i < qs.length) (h' : i < (grade_quiz qs answers).results.length),
      ((grade_quiz qs answers).results.get ⟨i, h'⟩).correct = true ↔
        (if (qs.get ⟨i, h⟩).qtype = "fill_blank"
         then pyStrip (pyLower ((answers i).getD "")) =
           pyStrip (pyLower (qs.get ⟨i, h⟩).correct_answer)
         else (answers i).getD "" = (qs.get ⟨i, h⟩).correct_answer)) := by
  have hle := gradeAux_fst_le answers qs 0
  have hlen := gradeAux_snd_length answers qs 0
  refine ⟨rfl, hle, rfl, ?_, ?_, ?_, hlen, ?_⟩
  · by_cases h : 0 < qs.length
    · simp only [grade_quiz, if_pos h]
      positivity
    · simp [grade_quiz, if_neg h]
  · by_cases h : 0 < qs.length
    · simp only [grade_quiz, if_pos h]
      have hq : ((gradeAux answers 0 qs).1 : ℚ) / qs.length ≤ 1 := by
        rw [div_le_one (by exact_mod_cast h)]
        exact_mod_cast hle
      calc ((gradeAux answers 0 qs).1 : ℚ) / qs.length * 100
          ≤ 1 * 100 := by
            exact mul_le_mul_of_nonneg_right hq (by norm_num)
        _ = 100 := by norm_num
    · simp [grade_quiz, if_neg h]
  · intro h
    subst h
    simp [grade_quiz]
  · intro i h h'
    have h'' : i < (gradeAux answers 0 qs).2.length := by rwa [hlen]
    have := gradeAux_snd_get answers qs 0 i h'' h
    simp only [grade_quiz] at h' ⊢
    rw [this]
    simp only [Nat.zero_add]
    unfold judgeB
    by_cases hty : (qs.get ⟨i, h⟩).qtype = "fill_blank"
    · simp [hty, beq_iff_eq]
    · simp [hty, beq_iff_eq]

/-- Witness for C8 at a concrete quiz and answer map, instantiated at
question 0. -/
theorem grade_quiz_spec_witness :
    (grade_quiz [Question.mk "fill_blank" "q" [] "energy" "e"]
        (fun _ => some "  ENERGY ")).total = 1 ∧
    (grade_quiz [Question.mk "fill_blank" "q" [] "energy" "e"]
        (fun _ => some "  ENERGY ")).correct ≤
      (grade_quiz [Question.mk "fill_blank" "q" [] "energy" "e"]
        (fun _ => some "  ENERGY ")).total ∧
    0 ≤ (grade_quiz [Question.mk "fill_blank" "q" [] "energy" "e"]
        (fun _ => some "  ENERGY ")).score ∧
    (grade_quiz [Question.mk "fill_blank" "q" [] "energy" "e"]
        (fun _ => some "  ENERGY ")).score ≤ 100 ∧
    (grade_quiz [Question.mk "fill_blank" "q" [] "energy" "e"]
        (fun _ => some "  ENERGY ")).results.length = 1 ∧
    (((grade_quiz [Question.mk "fill_blank" "q" [] "energy" "e"]
        (fun _ => some "  ENERGY ")).results.get ⟨0, by decide⟩).correct = true ↔
      (if (([Question.mk "fill_blank" "q" [] "energy" "e"] : List Question).get
          ⟨0, by decide⟩).qtype = "fill_blank"
       then pyStrip (pyLower (((fun _ => some "  ENERGY ") 0 : Option String).getD "")) =
         pyStrip (pyLower (([Question.mk "fill_blank" "q" [] "energy" "e"] :
           List Question).get ⟨0, by decide⟩).correct_answer)
       else ((fun _ => some "  ENERGY ") 0 : Option String).getD "" =
         (([Question.mk "fill_blank" "q" [] "energy" "e"] : List Question).get
           ⟨0, by decide⟩).correct_answer)) := by
  obtain ⟨h1, h2, -, h4, h5, -, h7, h8⟩ :=
    grade_quiz_spec [Question.mk "fill_blank" "q" [] "energy" "e"]
      (fun _ => some "  ENERGY ")
  exact ⟨h1, h2, h4, h5, h7, h8 0 (by decide) (by decide)⟩

/-! ### Summarizer (src/processors/summarizer.py)

The NLTK tokenizers and stopword list are a context of oracle functions.
The transformers pipeline object is a `Pipe`: a fixed function from
`(chunk, max_length, min_length)` to either a summary text or a raised
exception.  `load_model`'s `pipeline(...)` call is the `loadRes : Option
Pipe` oracle (`none` covers both the ImportError and the generic load
error, which the method handles identically: `use_transformers = False`,
return False).  Python's `sorted(keys, key=..., reverse=True)` and
`list.sort()` are stable; they are modelled with the stable
`List.insertionSort`. -/

def Pipe : Type := String → Nat → Nat → Except String String

structure SummCtx where
  sentTok : String → List String
  wordTok : String → List String
  stopwords : List String

structure SummState where
  model_name : String
  use_transformers : Bool
  summarizer : Option Pipe

structure SummaryResult where
  summary : String
  method : String
  original_length : Nat
  summary_length : Nat
  model : Option String
  num_points : Option Nat
  deriving DecidableEq, Repr

/-- `load_model` : on success store the pipeline and set
`use_transformers`; on ImportError or any other exception set
`use_transformers = False` and return `False`. -/
def load_model (loadRes : Option Pipe) (st : SummState) : SummState × Bool :=
  match loadRes with
  | some p => ({ st with use_transformers := true, summarizer := some p }, true)
  | none => ({ st with use_transformers := false }, false)

/-- The filtered token list whose counts make up `word_frequencies`:
alphanumeric, non-stopword tokens of the lowercased text. -/
def freqTokens (ctx : SummCtx) (text : String) : List String :=
  (ctx.wordTok (pyLower text)).filter
    (fun w => pyIsalnum w && !(ctx.stopwords.contains w))

/-- `max(word_frequencies.values())`. -/
def maxFreq (filtered : List String) : Nat :=
  (filtered.map (fun w => filtered.count w)).foldl max 0

/-- `word_frequencies.get(w, 0)` after normalisation by the maximum count. -/
def wordFreqNorm (filtered : List String) (w : String) : ℚ :=
  if filtered.isEmpty then 0
  else if filtered.contains w then (filtered.count w : ℚ) / (maxFreq filtered : ℚ)
  else 0

/-- The score of sentence `i` of `n`: normalised-frequency sum of its
alphanumeric tokens, position bonus for the first (×1.5) or last (×1.2)
sentence, length bonus (×1.2) for 10–30 tokens, penalty (×0.5) below 5. -/
def sentenceScore (ctx : SummCtx) (filtered : List String) (n i : Nat)
    (sentence : String) : ℚ :=
  let words := ctx.wordTok (pyLower sentence)
  let score := ((words.filter pyIsalnum).map (wordFreqNorm filtered)).sum
  let score := if i = 0 then score * (3 / 2 : ℚ)
    else if i = n - 1 then score * (6 / 5 : ℚ) else score
  let wc := words.length
  if 10 ≤ wc ∧ wc ≤ 30 then score * (6 / 5 : ℚ)
  else if wc < 5 then score * (1 / 2 : ℚ) else score

/-- `sentence_scores[i]` of `_extractive_summarize`. -/
def extractiveScoreOf (ctx : SummCtx) (text : String) (i : Nat) : ℚ :=
  sentenceScore ctx (freqTokens ctx text) (ctx.sentTok text).length i
    ((ctx.sentTok text).getD i "")

/-- The `top_indices` of `_extractive_summarize` after the final
`top_indices.sort()` : the sentence indices `0, …, n-1` stably sorted by
descending score (`sorted(..., reverse=True)`), cut to
`max(3, n // 4)`, and re-sorted ascending (both Python sorts are stable;
`List.insertionSort` is the matching stable sort). -/
def extractiveTopIndices (ctx : SummCtx) (text : String) : List Nat :=
  List.insertionSort (· ≤ ·)
    ((List.insertionSort
      (fun a b => extractiveScoreOf ctx text b ≤ extractiveScoreOf ctx text a)
      (List.range (ctx.sentTok text).length)).take
        (max 3 ((ctx.sentTok text).length / 4)))

/-- `' '.join(sentences[i] for i in top_indices)`. -/
def extractiveSummaryText (ctx : SummCtx) (text : String) : String :=
  String.intercalate " "
    ((extractiveTopIndices ctx text).map (fun i => (ctx.sentTok text).getD i ""))

/-- `_extractive_summarize` : texts of at most 3 sentences are returned
whole; otherwise the `max(3, n // 4)` highest-scoring sentence indices are
kept and re-sorted into original order.  (`max_length` is accepted and
unused, as in the source.) -/
def extractive_summarize (ctx : SummCtx) (text : String) (max_length : Nat) :
    SummaryResult :=
  if (ctx.sentTok text).length ≤ 3 then
    SummaryResult.mk text "extractive" text.length text.length none none
  else
    SummaryResult.mk (extractiveSummaryText ctx text) "extractive" text.length
      (extractiveSummaryText ctx text).length none none

/-- `_split_text` : group sentences into chunks of at most `max_length`
split-words (a chunk is flushed when adding the next sentence would exceed
the limit and the chunk is nonempty). -/
def split_text (sentTok : String → List String) (text : String) (max_length : Nat) :
    List String :=
  let step := fun (acc : List String × List String × Nat) (s : String) =>
    let slen := (pySplitWs s).length
    if max_length < acc.2.2 + slen ∧ ¬acc.2.1.isEmpty then
      (acc.1 ++ [String.intercalate " " acc.2.1], [s], slen)
    else (acc.1, acc.2.1 ++ [s], acc.2.2 + slen)
  let r := (sentTok text).foldl step ([], [], 0)
  if r.2.1.isEmpty then r.1 else r.1 ++ [String.intercalate " " r.2.1]

/-- `_transformer_summarize` : summarize each chunk through the pipeline
(short chunks pass through; a chunk whose pipeline call raises is replaced
by its first `max_length * 5` characters), join, optionally re-summarize a
long combined text, and return a `'transformer'`-method result. -/
def transformer_summarize (ctx : SummCtx) (pipe : Pipe) (model_name text : String)
    (maxL minL : Nat) : SummaryResult :=
  let chunks := split_text ctx.sentTok text 1024
  let summaries := chunks.map (fun chunk =>
    if (pySplitWs chunk).length < 30 then chunk
    else match pipe chunk maxL minL with
      | .ok s => s
      | .error _ => pyTakeStr (maxL * 5) chunk)
  let combined := String.intercalate " " summaries
  let combined := if maxL < (pySplitWs combined).length then
      match pipe combined maxL minL with
      | .ok s => s
      | .error _ => combined
    else combined
  SummaryResult.mk combined "transformer" text.length combined.length
    (some model_name) none

/-- `_generate_bullet_points` : bullet-format the sentences of the
extractive summary. -/
def generate_bullet_points (ctx : SummCtx) (text : String) : SummaryResult :=
  let extr := extractive_summarize ctx text 300
  let key_sentences := ctx.sentTok extr.summary
  let bullets := key_sentences.filterMap (fun s =>
    let s := pyStrip s
    if s = "" then none else some ("• " ++ s))
  let summary := String.intercalate "\n" bullets
  SummaryResult.mk summary "bullet_points" text.length summary.length none
    (some bullets.length)

/-- `summarize` : short texts pass through with method `'none'`; the
`detailed` style raises the length bounds; `bullet_points` dispatches to
the bullet generator; otherwise the transformer path is tried (loading the
model on first use) with the extractive summarizer as fallback. -/
def summarize (ctx : SummCtx) (loadRes : Option Pipe) (st : SummState)
    (text : String) (maxL0 minL0 : Nat) (style : String) : SummaryResult :=
  if text = "" ∨ (pyStrip text).length < 50 then
    SummaryResult.mk text "none" text.length text.length none none
  else
    let maxL := if style = "detailed" then max maxL0 300 else maxL0
    let minL := if style = "detailed" then max minL0 100 else minL0
    if style = "bullet_points" then generate_bullet_points ctx text
    else if st.use_transformers then
      let st' := if st.summarizer.isNone then (load_model loadRes st).1 else st
      match st'.summarizer with
      | some pipe => transformer_summarize ctx pipe st.model_name text maxL minL
      | none => extractive_summarize ctx text maxL
    else extractive_summarize ctx text maxL

/-! ### Transcriber (src/processors/transcriber.py)

`transcribe` performs explicit validation raises before calling the cloud
API.  The API call (run on a worker thread only so the UI can poll
progress; its result or exception is re-raised on the main thread) is the
`api` oracle.  The wall clock is the `now` / `elapsed` oracles. -/

structure AaiWord where
  startMs : Int
  endMs : Int
  text : String
  deriving DecidableEq, Repr

structure ApiTranscript where
  status : String
  errorMsg : String
  text : Option String
  words : Option (List AaiWord)
  json_language : Option String
  json_duration : Option Int
  deriving DecidableEq, Repr

structure Segment where
  id : Nat
  start : ℚ
  finish : ℚ
  text : String
  deriving DecidableEq, Repr

structure Transcription where
  text : String
  segments : List Segment
  language : String
  duration : ℚ
  processing_time : ℚ
  model_size : String
  timestamp : String
  deriving DecidableEq, Repr

/-- `round(x, 2)` (Python rounds ties to even; modelled half-up — no claim
below depends on tie behaviour). -/
def round2 (q : ℚ) : ℚ := ((⌊q * 100 + 1 / 2⌋ : ℤ) : ℚ) / 100

/-- Split a list into consecutive chunks of `k` (fuel-based, `k ≥ 1`). -/
def chunksOfAux {α : Type} (k : Nat) : Nat → List α → List (List α)
  | 0, _ => []
  | _, [] => []
  | fuel + 1, l => l.take k :: chunksOfAux k fuel (l.drop k)

def chunksOf {α : Type} (k : Nat) (l : List α) : List (List α) :=
  chunksOfAux k (l.length + 1) l

def supported_formats : List String := [".mp3", ".wav", ".m4a", ".ogg", ".flac", ".webm"]

/-- `pathlib.Path(p).suffix` : the final extension of the basename, empty
for dotless names and leading-dot names. -/
def pySuffix (p : String) : String :=
  let base := (p.data.reverse.takeWhile (· ≠ '/')).reverse
  let revBase := base.reverse
  let pre := revBase.takeWhile (· ≠ '.')
  if pre.length = revBase.length then ""
  else if base.length - 1 - pre.length = 0 then ""
  else ⟨'.' :: pre.reverse⟩

/-- `Transcriber.transcribe` : raises FileNotFoundError for a missing
file and ValueError for an unsupported extension, re-raises the API
exception, raises RuntimeError on an error-status transcript, and
otherwise formats the transcript (segments of 15 words with second
timestamps, detected language, duration). -/
def transcribe (path : String) (fileExists : Bool) (language : Option String)
    (api : Except String ApiTranscript) (now : String) (elapsed : ℚ) :
    Except String Transcription :=
  let _ := language
  if ¬ fileExists then
    .error ("FileNotFoundError: Audio file not found: " ++ path)
  else if ¬ (supported_formats.contains (pyLower (pySuffix path))) then
    .error ("ValueError: Unsupported format: " ++ pySuffix path)
  else
    match api with
    | .error e => .error e
    | .ok t =>
      if t.status = "error" then
        .error ("RuntimeError: Transcription failed: " ++ t.errorMsg)
      else
        let detected := (t.json_language).getD "unknown"
        let words := (t.words).getD []
        let segments := (chunksOf 15 words).enum.map (fun p =>
          Segment.mk p.1
            (round2 ((((p.2.headD (AaiWord.mk 0 0 "")).startMs : ℚ)) / 1000))
            (round2 ((((p.2.getLast? ).getD (AaiWord.mk 0 0 "")).endMs : ℚ) / 1000))
            (pyStrip (String.intercalate " " (p.2.map (·.text)))))
        let duration : ℚ :=
          match segments.getLast? with
          | some seg => seg.finish
          | none => match t.json_duration with
            | some d => (d : ℚ)
            | none => 0
        .ok (Transcription.mk ((t.text).getD "") segments detected duration
          (round2 elapsed) "assemblyai" now)

/-! ### FileHandler (src/utils/file_handler.py) -/

structure FileInfo where
  original_name : String
  saved_name : String
  path : String
  size : Int
  ftype : String
  uploaded_at : String
  deriving DecidableEq, Repr

/-- `save_uploaded_file` : the body (whose raising operation is the
`open`/`write`, the `writeRes` oracle) sits in a `try/except` that returns
the `(False, None, None)` sentinel, so no exception propagates. -/
def save_uploaded_file (writeRes : Except String Unit) (name : String) (size : Int)
    (ftype : String) (ts iso : String) :
    Except String (Bool × Option String × Option FileInfo) :=
  let filename := ts ++ "_" ++ name
  let file_path := "data/uploads/" ++ filename
  match writeRes with
  | .error _ => .ok (false, none, none)
  | .ok _ => .ok (true, some file_path,
      some (FileInfo.mk name filename file_path size ftype iso))

/-! ### Theorems about the extractive summarizer (C9) -/

theorem extractiveTopIndices_facts (ctx : SummCtx) (text : String)
    (hn : 3 < (ctx.sentTok text).length) :
    List.Sorted (· < ·) (extractiveTopIndices ctx text) ∧
    (extractiveTopIndices ctx text).length = max 3 ((ctx.sentTok text).length / 4) ∧
    ∀ i ∈ extractiveTopIndices ctx text, i < (ctx.sentTok text).length := by
  have hkn : max 3 ((ctx.sentTok text).length / 4) ≤ (ctx.sentTok text).length := by
    have := Nat.div_le_self (ctx.sentTok text).length 4
    omega
  have hperm1 := List.perm_insertionSort
    (fun a b => extractiveScoreOf ctx text b ≤ extractiveScoreOf ctx text a)
    (List.range (ctx.sentTok text).length)
  have hdescNodup : (List.insertionSort
      (fun a b => extractiveScoreOf ctx text b ≤ extractiveScoreOf ctx text a)
      (List.range (ctx.sentTok text).length)).Nodup :=
    hperm1.symm.nodup (List.nodup_range _)
  have htopNodup : ((List.insertionSort
      (fun a b => extractiveScoreOf ctx text b ≤ extractiveScoreOf ctx text a)
      (List.range (ctx.sentTok text).length)).take
        (max 3 ((ctx.sentTok text).length / 4))).Nodup :=
    List.Nodup.sublist (List.take_sublist _ _) hdescNodup
  have hperm2 := List.perm_insertionSort (· ≤ · : Nat → Nat → Prop)
    ((List.insertionSort
      (fun a b => extractiveScoreOf ctx text b ≤ extractiveScoreOf ctx text a)
      (List.range (ctx.sentTok text).length)).take
        (max 3 ((ctx.sentTok text).length / 4)))
  have hsortNodup : (extractiveTopIndices ctx text).Nodup := hperm2.symm.nodup htopNodup
  have hsortLe : List.Sorted (· ≤ ·) (extractiveTopIndices ctx text) :=
    List.sorted_insertionSort _ _
  refine ⟨hsortLe.lt_of_le hsortNodup, ?_, ?_⟩
  · unfold extractiveTopIndices
    rw [List.length_insertionSort, List.length_take, List.length_insertionSort,
        List.length_range]
    exact Nat.min_eq_left hkn
  · intro i hi
    have h1 : i ∈ (List.insertionSort
        (fun a b => extractiveScoreOf ctx text b ≤ extractiveScoreOf ctx text a)
        (List.range (ctx.sentTok text).length)).take
          (max 3 ((ctx.sentTok text).length / 4)) := hperm2.mem_iff.mp hi
    have h2 := List.take_subset _ _ h1
    have h3 := hperm1.mem_iff.mp h2
    exact List.mem_range.mp h3

/-- C9: on more than 3 sentences, the extractive summary is the
space-joined concatenation of exactly `max(3, n // 4)` sentences of the
input, selected by strictly increasing index (original relative order);
on at most 3 sentences the input text is returned unchanged. -/
theorem extractive_summarize_spec (ctx : SummCtx) (text : String) (maxL : Nat) :
    (3 < (ctx.sentTok text).length →
      ∃ idx : List Nat,
        List.Sorted (· < ·) idx ∧
        idx.length = max 3 ((ctx.sentTok text).length / 4) ∧
        (∀ i ∈ idx, i < (ctx.sentTok text).length) ∧
        (extractive_summarize ctx text maxL).summary =
          String.intercalate " " (idx.map (fun i => (ctx.sentTok text).getD i "")) ∧
        (extractive_summarize ctx text maxL).method = "extractive") ∧
    ((ctx.sentTok text).length ≤ 3 →
      (extractive_summarize ctx text maxL).summary = text ∧
      (extractive_summarize ctx text maxL).method = "extractive") := by
  constructor
  · intro hn
    obtain ⟨hs, hl, hm⟩ := extractiveTopIndices_facts ctx text hn
    refine ⟨extractiveTopIndices ctx text, hs, hl, hm, ?_, ?_⟩
    · unfold extractive_summarize
      rw [if_neg (not_le.mpr hn)]
      rfl
    · unfold extractive_summarize
      rw [if_neg (not_le.mpr hn)]
  · intro h3
    unfold extractive_summarize
    rw [if_pos h3]
    exact ⟨rfl, rfl⟩

/-- A concrete four-sentence tokenizer context. -/
def sampleSummCtx : SummCtx :=
  SummCtx.mk
    (fun _ => ["Alpha beta gamma delta epsilon one", "Two short",
               "Three tokens here now abc", "Four closing words end here"])
    pySplitWs ["the", "a"]

/-- Witness for C9 at the concrete four-sentence context. -/
theorem extractive_summarize_spec_witness :
    (extractive_summarize sampleSummCtx "whatever" 150).method = "extractive" := by
  obtain ⟨-, -, -, -, -, hm⟩ :=
    (extractive_summarize_spec sampleSummCtx "whatever" 150).1 (by decide)
  exact hm

/-! ### Theorems about `summarize` (C6) -/

theorem extractive_method_always (ctx : SummCtx) (text : String) (maxL : Nat) :
    (extractive_summarize ctx text maxL).method = "extractive" := by
  unfold extractive_summarize
  by_cases h : (ctx.sentTok text).length ≤ 3
  · rw [if_pos h]
  · rw [if_neg h]

/-- C6, amended: when the pipeline cannot be loaded (import failure or
load error — `load_model` returns False and leaves `summarizer = None`),
`summarize` on a long enough text with a non-bullet style returns exactly
the extractive fallback. -/
theorem summarize_extractive_when_load_fails
    (ctx : SummCtx) (st : SummState) (loadRes : Option Pipe) (text : String)
    (maxL0 minL0 : Nat) (style : String)
    (hlen : 50 ≤ (pyStrip text).length)
    (hstyle : style ≠ "bullet_points")
    (hsum : st.summarizer = none)
    (hload : loadRes = none) :
    summarize ctx loadRes st text maxL0 minL0 style =
      extractive_summarize ctx text
        (if style = "detailed" then max maxL0 300 else maxL0) ∧
    (summarize ctx loadRes st text maxL0 minL0 style).method = "extractive" := by
  subst hload
  have hcond : ¬ (text = "" ∨ (pyStrip text).length < 50) := by
    rintro (rfl | hlt)
    · exact absurd hlen (by decide)
    · omega
  have hmain : summarize ctx none st text maxL0 minL0 style =
      extractive_summarize ctx text
        (if style = "detailed" then max maxL0 300 else maxL0) := by
    unfold summarize
    rw [if_neg hcond, if_neg hstyle]
    cases htr : st.use_transformers with
    | false => simp
    | true => simp [hsum, load_model]
  exact ⟨hmain, hmain ▸ extractive_method_always ctx text _⟩

/-- The one-sentence tokenizer context used for the summarizer scenarios. -/
def cexSummCtx : SummCtx := SummCtx.mk (fun t => [t]) pySplitWs []

/-- A fresh summarizer state whose model has not been loaded. -/
def unloadedState : SummState := SummState.mk "facebook/bart-large-cnn" true none

/-- A 32-word input text (so the single chunk reaches the pipeline). -/
def cexSummText : String :=
  "neural networks learn layered representations of data by adjusting millions of weights through gradient descent so that prediction errors shrink steadily across many successive training epochs over very large labeled datasets today"

set_option maxRecDepth 10000 in
/-- Witness for the amended C6 theorem at a concrete unloadable state. -/
theorem summarize_extractive_when_load_fails_witness :
    summarize cexSummCtx none unloadedState cexSummText 150 50 "concise" =
      extractive_summarize cexSummCtx cexSummText
        (if ("concise" : String) = "detailed" then max 150 300 else 150) ∧
    (summarize cexSummCtx none unloadedState cexSummText 150 50 "concise").method =
      "extractive" :=
  summarize_extractive_when_load_fails cexSummCtx unloadedState none cexSummText
    150 50 "concise" (by decide) (by decide) rfl rfl

/-- A loaded pipeline that raises on every call. -/
def badPipe : Pipe := fun _ _ _ => Except.error "boom"

/-- A summarizer state holding the raising pipeline. -/
def loadedState : SummState := SummState.mk "facebook/bart-large-cnn" true (some badPipe)

set_option maxRecDepth 10000 in
/-- C6, counterexample: the claim's premises hold (50+ stripped characters,
style is not bullet_points) and the loaded pipeline raises on every call —
it is in fact called on the 32-word chunk — yet `summarize` returns a
`'transformer'`-method result (the per-chunk handler substitutes the
truncated chunk), not the extractive fallback. -/
theorem summarize_not_extractive_when_pipeline_raises :
    50 ≤ (pyStrip cexSummText).length ∧
    ("concise" : String) ≠ "bullet_points" ∧
    loadedState.summarizer = some badPipe ∧
    badPipe cexSummText 150 50 = Except.error "boom" ∧
    (summarize cexSummCtx none loadedState cexSummText 150 50 "concise").method =
      "transformer" ∧
    (summarize cexSummCtx none loadedState cexSummText 150 50 "concise").method ≠
      "extractive" := by
  exact ⟨by decide, by decide, rfl, rfl, by decide, by decide⟩

/-! ### Theorems about error handling across the wrappers (C2) -/

/-- C2, amended: the operations that wrap their whole body in a broad
`try/except` surface sentinels, never exceptions — `save_uploaded_file`
returns `(False, None, None)` when the write raises and always returns
normally, `generate_quiz` returns `[]` when tokenization raises and always
returns normally — while `Transcriber.transcribe` instead raises to its
caller (here: a missing file always yields a `FileNotFoundError`). -/
theorem error_handling_wrappers :
    (∀ e name size ftype ts iso,
      save_uploaded_file (Except.error e) name size ftype ts iso =
        Except.ok (false, none, none)) ∧
    (∀ writeRes name size ftype ts iso,
      (save_uploaded_file writeRes name size ftype ts iso).isOk = true) ∧
    (∀ o text n d, (generate_quiz o text n d).isOk = true) ∧
    (∀ o text n d e, o.sentTok text = Except.error e →
      generate_quiz o text n d = Except.ok []) ∧
    (∀ path lang api now elapsed,
      transcribe path false lang api now elapsed =
        Except.error ("FileNotFoundError: Audio file not found: " ++ path)) := by
  refine ⟨fun e name size ftype ts iso => rfl, ?_, ?_, ?_, fun path lang api now elapsed => rfl⟩
  · intro writeRes name size ftype ts iso
    cases writeRes <;> rfl
  · intro o text n d
    unfold generate_quiz
    cases h : o.sentTok text <;> rfl
  · intro o text n d e h
    simp [generate_quiz, h]

/-- A quiz oracle whose `sent_tokenize` raises (missing NLTK data). -/
def failTokOracles : QuizOracles :=
  { sampleOracles with sentTok := fun _ => Except.error "LookupError" }

/-- Witness for the amended C2 theorem: a raising tokenizer still yields
the `[]` sentinel. -/
theorem error_handling_wrappers_witness :
    generate_quiz failTokOracles "any text" 5 "easy" = Except.ok [] :=
  error_handling_wrappers.2.2.2.1 failTokOracles "any text" 5 "easy" "LookupError" rfl

/-- A successful API response used by the counterexample. -/
def apiDummy : ApiTranscript :=
  ApiTranscript.mk "completed" "" (some "hello") (some []) (some "en") (some 10)

/-- C2, counterexample: `Transcriber.transcribe` propagates exceptions out
of itself — FileNotFoundError for a missing file, ValueError for an
unsupported extension, and the API exception re-raised from the worker
thread. -/
theorem transcribe_raises_to_caller :
    transcribe "missing.mp3" false none (Except.ok apiDummy) "ts" 0 =
      Except.error "FileNotFoundError: Audio file not found: missing.mp3" ∧
    transcribe "notes.txt" true none (Except.ok apiDummy) "ts" 0 =
      Except.error "ValueError: Unsupported format: .txt" ∧
    transcribe "lecture.mp3" true none (Except.error "ConnectionError") "ts" 0 =
      Except.error "ConnectionError" := by
  exact ⟨rfl, rfl, rfl⟩

end V2N
